import Mathlib

/-!
Shallow embedding of the batch image-transcoding pipeline of
`src/src-tauri/src/commands.rs` (the `save_images` Tauri command and the
data types it consumes), together with theorems settling the frozen
claims about it.

The pipeline's external collaborators (the filesystem and the `image` /
`webp` codec crates) are modelled abstractly: the filesystem is an
explicit state (`FS`) threaded through the run, and the codecs are a
record of pure functions (`Codec`).  The control flow, branch structure
and data flow of `save_images` itself are translated statement by
statement from the Rust source.  Each pipeline step additionally emits
an `Event` into a trace, so that theorems can speak about which steps
were invoked, in which order, and with which arguments.
-/

namespace ImageCompressor

/-- Output format options for saved images.
Mirrors `enum OutputFormat` in commands.rs (lines 31-42):
`KeepOriginal`, `Png`, `Jpeg`, `Webp`. -/
inductive OutputFormat where
  | keepOriginal
  | png
  | jpeg
  | webp
deriving DecidableEq, Repr

/-- One transcode job.  Mirrors `struct ImageToSave` in commands.rs
(lines 44-59).  `u32` and `u8` fields are modelled as `Nat`; the `u8`
range of `quality` (0..255) is not enforced anywhere in the source and
is not enforced here. -/
structure ImageToSave where
  path : String
  /-- Full absolute path including filename. -/
  destination_path : String
  target_width : Nat
  target_height : Nat
  output_format : OutputFormat
  /-- Quality setting (1-100) per the source's doc comment; the code
  performs no validation of this field. -/
  quality : Nat
deriving DecidableEq, Repr

/-- Mirrors `struct SaveResult` in commands.rs (lines 61-65). -/
structure SaveResult where
  success : Bool
  saved_count : Nat
deriving DecidableEq, Repr

/-- Resampling filters of `image::imageops::FilterType`.  The source
only ever uses `Lanczos3` (commands.rs line 81). -/
inductive FilterType where
  | nearest
  | triangle
  | catmullRom
  | gaussian
  | lanczos3
deriving DecidableEq, Repr

/-- An in-memory pixel buffer: the model of `image::DynamicImage` (and,
after `to_rgba8`, of `image::RgbaImage`).  `data` is the abstract pixel
content; only the dimensions are interpreted. -/
structure DynamicImage where
  width : Nat
  height : Nat
  data : List Nat
deriving DecidableEq, Repr

/-- Bytes of a file, abstracted as a list of naturals. -/
abbrev Bytes := List Nat

/-- The filesystem state threaded through a run of `save_images`.
`files` is an association list from path to content (most recent write
first); `dirs` is the set of existing directories.  `failWrites` and
`failDirs` inject the environment's failures: writing to a path in
`failWrites` fails (disk full / permission denied), and creating a
directory chain that meets `failDirs` fails, as `std::fs` calls may. -/
structure FS where
  files : List (String × Bytes)
  dirs : List String
  failWrites : List String
  failDirs : List String
deriving DecidableEq, Repr

/-- Content of the file at `p`, or `none` if no such file. -/
def lookupF (fs : FS) (p : String) : Option Bytes :=
  match fs.files.find? (fun e => e.1 = p) with
  | none => none
  | some e => some e.2

/-- The pure codec functions the pipeline delegates to: the decoder
behind `image::open`, the resampler behind `resize_exact`, the pixel
conversion behind `to_rgba8`, the `webp::Encoder` entry points, and the
extension-driven encoder behind `DynamicImage::save`. -/
structure Codec where
  /-- Decode a byte buffer into an image (`image::open` after the read).
  Fails on unsupported or corrupt containers. -/
  decodeBytes : Bytes → Except String DynamicImage
  /-- Pixel data produced by resampling `img` to `w × h` with filter
  `f` (the interesting part of `resize_exact`; the dimensions of the
  result are fixed by `resize_exact` itself). -/
  resample : FilterType → Nat → Nat → DynamicImage → List Nat
  /-- Pixel data after conversion to 8-bit RGBA (`to_rgba8`). -/
  rgbaData : List Nat → List Nat
  /-- Model of `webp::Encoder::encode_lossless` on an RGBA buffer. -/
  webpLossless : DynamicImage → Bytes
  /-- Model of `webp::Encoder::encode(quality as f32)` on an RGBA buffer.
  The `u8 → f32` cast is exact on 0..255, so the quality stays a `Nat`. -/
  webpLossy : Nat → DynamicImage → Bytes
  /-- Model of `DynamicImage::save`: encode for the container format named by the
  destination's file extension.  Fails on unknown/missing extensions or
  encoder errors. -/
  saveByExt : Option String → DynamicImage → Except String Bytes

/-- Drop trailing `/` characters (`Path` treats `a/b/` like `a/b`). -/
def dropTrailingSlashes : List Char → List Char
  | [] => []
  | c :: cs =>
    match dropTrailingSlashes cs with
    | [] => if c = '/' then [] else [c]
    | cs' => c :: cs'

/-- Index of the last `/` in `cs`, if any. -/
def lastSlashPos (cs : List Char) : Option Nat :=
  match cs.reverse.findIdx? (fun c => c = '/') with
  | none => none
  | some i => some (cs.length - 1 - i)

/-- Models `std::path::Path::parent` for paths without redundant
separator runs: `""` and `"/"` have no parent, a bare file name has
parent `""`, `"/a"` has parent `"/"`, and otherwise the parent is the
path up to the last separator. -/
def parentDir (p : String) : Option String :=
  match dropTrailingSlashes p.toList with
  | [] => none
  | cs =>
    match lastSlashPos cs with
    | none => some ""
    | some 0 => some "/"
    | some i => some (String.mk (cs.take i))

/-- Directory `d` together with all its ancestor directories, by iterating
`parentDir`.  Since `parentDir` strictly shortens the string, fuel
`d.length + 1` always suffices. -/
def dirChainAux : Nat → String → List String
  | 0, _ => []
  | fuel + 1, d =>
    d :: (match parentDir d with
          | none => []
          | some p => dirChainAux fuel p)

/-- The directories `std::fs::create_dir_all d` brings into existence:
`d` and all its ancestors. -/
def dirChain (d : String) : List String :=
  dirChainAux (d.length + 1) d

/-- Models `std::fs::create_dir_all`: creates `dir` and every missing
ancestor; succeeds when the directories already exist; fails when the
environment forbids some directory on the chain (`failDirs`). -/
def createDirAll (fs : FS) (dir : String) : Except String FS :=
  if (dirChain dir).any (fun d => fs.failDirs.contains d) then
    Except.error ("failed to create directory: " ++ dir)
  else
    Except.ok { fs with dirs := dirChain dir ++ fs.dirs }

/-- Models `std::fs::write`: overwrites the file at `p` with content
`b`; fails when the environment forbids the path (`failWrites`). -/
def writeFile (fs : FS) (p : String) (b : Bytes) : Except String FS :=
  if fs.failWrites.contains p then
    Except.error ("failed to write: " ++ p)
  else
    Except.ok { fs with files := (p, b) :: fs.files }

/-- Models `image::open(&path)` (commands.rs line 75): read the file at
`path`, then decode its bytes. -/
def openImage (c : Codec) (fs : FS) (path : String) : Except String DynamicImage :=
  match lookupF fs path with
  | none => Except.error ("No such file or directory: " ++ path)
  | some bytes => c.decodeBytes bytes

/-- Models `DynamicImage::resize_exact(w, h, filter)` (commands.rs lines
78-82): resample to exactly `w × h` with the given filter; the aspect
ratio is not preserved and nothing is cropped — the output dimensions
are exactly the arguments. -/
def resizeExact (c : Codec) (img : DynamicImage) (w h : Nat) (f : FilterType) : DynamicImage :=
  { width := w, height := h, data := c.resample f w h img }

/-- Models `DynamicImage::to_rgba8` (commands.rs line 94): convert the
pixel data to 8-bit RGBA, keeping the dimensions. -/
def toRgba8 (c : Codec) (img : DynamicImage) : DynamicImage :=
  { width := img.width, height := img.height, data := c.rgbaData img.data }

/-- The file-name extension of a path, as `std::path::Path::extension`:
the part of the last component after its last `.`, and `none` when the
last component has no `.` or starts with its only `.`. -/
def extensionOf (p : String) : Option String :=
  match lastSlashPos p.toList with
  | none => extAux p.toList
  | some i => extAux (p.toList.drop (i + 1))
where
  /-- Extension of a bare file name given as a character list. -/
  extAux (cs : List Char) : Option String :=
    match (cs.reverse.findIdx? (fun c => c = '.')).map (fun i => cs.length - 1 - i) with
    | none => none
    | some 0 => none
    | some i => some (String.mk (cs.drop (i + 1)))

/-- One observable step of the pipeline, recorded in the run's trace. -/
inductive Event where
  /-- Step event: `image::open` was invoked on this source path. -/
  | decode (path : String)
  /-- Step event: `resize_exact` was invoked with these dimensions and filter. -/
  | resize (w h : Nat) (f : FilterType)
  /-- Step event: `create_dir_all` was invoked on this directory. -/
  | createDirAll (dir : String)
  /-- Step event: `to_rgba8` produced an RGBA buffer of these dimensions. -/
  | toRgba8 (w h : Nat)
  /-- Step event: `encode_lossless` was invoked on a `w × h` RGBA buffer. -/
  | webpEncodeLossless (w h : Nat)
  /-- Step event: `encode(q as f32)` was invoked on a `w × h` RGBA buffer. -/
  | webpEncodeLossy (q : Nat) (w h : Nat)
  /-- Step event: `DynamicImage::save` encoded a `w × h` buffer for this extension. -/
  | encodeByExtension (ext : Option String) (w h : Nat)
  /-- These bytes were written to this destination path. -/
  | writeFile (path : String) (b : Bytes)
deriving DecidableEq, Repr

/-- The WebP payload selected by commands.rs lines 103-107:
`if image_info.quality == 100 { encoder.encode_lossless() } else
{ encoder.encode(image_info.quality as f32) }`. -/
def webpPayload (c : Codec) (q : Nat) (rgba : DynamicImage) : Bytes :=
  if q = 100 then c.webpLossless rgba else c.webpLossy q rgba

/-- The trace event corresponding to `webpPayload`. -/
def webpEvent (q w h : Nat) : Event :=
  if q = 100 then Event.webpEncodeLossless w h else Event.webpEncodeLossy q w h

/-- The `if let Some(parent) = dest_file_path.parent()` block of
commands.rs lines 87-89: create the parent directory chain when the
destination has a parent.  Returns the updated filesystem and the trace
of the step. -/
def ensureParent (fs : FS) (dest : String) : Except String (FS × List Event) :=
  match parentDir dest with
  | none => Except.ok (fs, [])
  | some par =>
    match createDirAll fs par with
    | Except.error e => Except.error e
    | Except.ok fs' => Except.ok (fs', [Event.createDirAll par])

/-- The body of the `for image_info in images` loop of `save_images`
(commands.rs lines 73-117), for one job: decode, resize, ensure the
destination's parent directory, then encode and write according to the
output format.  Returns the step outcome, the filesystem after the
side effects that happened (also on failure), and the trace of invoked
steps. -/
def processJob (c : Codec) (fs : FS) (info : ImageToSave) :
    Except String Unit × FS × List Event :=
  match openImage c fs info.path with
  | Except.error e => (Except.error e, fs, [Event.decode info.path])
  | Except.ok img =>
    let resized := resizeExact c img info.target_width info.target_height FilterType.lanczos3
    let tr0 := [Event.decode info.path,
                Event.resize info.target_width info.target_height FilterType.lanczos3]
    match ensureParent fs info.destination_path with
    | Except.error e => (Except.error e, fs, tr0)
    | Except.ok (fs1, trD) =>
      match info.output_format with
      | OutputFormat.webp =>
        let rgba := toRgba8 c resized
        let webpData := webpPayload c info.quality rgba
        let trE := [Event.toRgba8 rgba.width rgba.height,
                    webpEvent info.quality rgba.width rgba.height]
        match writeFile fs1 info.destination_path webpData with
        | Except.error e => (Except.error e, fs1, tr0 ++ trD ++ trE)
        | Except.ok fs2 =>
          (Except.ok (), fs2,
           tr0 ++ trD ++ trE ++ [Event.writeFile info.destination_path webpData])
      | OutputFormat.keepOriginal | OutputFormat.png | OutputFormat.jpeg =>
        let ext := extensionOf info.destination_path
        match c.saveByExt ext resized with
        | Except.error e =>
          (Except.error e, fs1, tr0 ++ trD ++ [Event.encodeByExtension ext resized.width resized.height])
        | Except.ok bytes =>
          match writeFile fs1 info.destination_path bytes with
          | Except.error e =>
            (Except.error e, fs1, tr0 ++ trD ++ [Event.encodeByExtension ext resized.width resized.height])
          | Except.ok fs2 =>
            (Except.ok (), fs2,
             tr0 ++ trD ++ [Event.encodeByExtension ext resized.width resized.height,
                            Event.writeFile info.destination_path bytes])

/-- The `for` loop of `save_images` with the running `saved_count`:
processes the jobs in order; the first failing job aborts the loop with
its error, leaving the side effects performed so far in place. -/
def saveLoop (c : Codec) (fs : FS) (count : Nat) :
    List ImageToSave → Except String SaveResult × FS × List Event
  | [] => (Except.ok { success := true, saved_count := count }, fs, [])
  | info :: rest =>
    match processJob c fs info with
    | (Except.error e, fs', tr) => (Except.error e, fs', tr)
    | (Except.ok _, fs', tr) =>
      match saveLoop c fs' (count + 1) rest with
      | (res, fs'', tr') => (res, fs'', tr ++ tr')

/-- `save_images` (commands.rs lines 67-124): run the loop over the
batch starting from `saved_count = 0`; on success of every job return
`SaveResult { success: true, saved_count }`. -/
def save_images (c : Codec) (fs : FS) (images : List ImageToSave) :
    Except String SaveResult × FS × List Event :=
  saveLoop c fs 0 images

/-- A concrete codec used to exercise the pipeline on closed inputs: a
bytes buffer decodes as `width :: height :: pixels`, and each encoder
tags its output so that distinct encode paths are distinguishable. -/
def testCodec : Codec :=
  { decodeBytes := fun b =>
      match b with
      | w :: h :: px => Except.ok { width := w, height := h, data := px }
      | _ => Except.error "unsupported image format"
    resample := fun _ w h img => img.data.take 1 ++ [w, h]
    rgbaData := fun d => 0 :: d
    webpLossless := fun img => 1 :: img.width :: img.height :: img.data
    webpLossy := fun q img => 2 :: q :: img.width :: img.height :: img.data
    saveByExt := fun ext img =>
      match ext with
      | none => Except.error "unsupported extension"
      | some e => Except.ok (3 :: e.length :: img.width :: img.height :: img.data) }

/-- A concrete starting filesystem holding one readable source image. -/
def fsA : FS :=
  { files := [("pics/cat.png", [10, 8, 7, 7])]
    dirs := []
    failWrites := []
    failDirs := [] }

/-- A concrete WebP job with a lossy quality. -/
def jobWebp : ImageToSave :=
  { path := "pics/cat.png"
    destination_path := "out/sub/cat.webp"
    target_width := 3
    target_height := 2
    output_format := OutputFormat.webp
    quality := 80 }

/-- A concrete PNG job. -/
def jobPng : ImageToSave :=
  { path := "pics/cat.png"
    destination_path := "out/cat.png"
    target_width := 4
    target_height := 5
    output_format := OutputFormat.png
    quality := 50 }

/-- A concrete job whose source path does not exist, so decode fails. -/
def jobMissing : ImageToSave :=
  { path := "missing.png"
    destination_path := "out/m.png"
    target_width := 2
    target_height := 2
    output_format := OutputFormat.png
    quality := 50 }

/-- Dimensions recorded by an encode-step event, if the event is one of
the encode steps (RGBA conversion, WebP encode, extension encode). -/
def encodeDims : Event → Option (Nat × Nat)
  | Event.toRgba8 w h => some (w, h)
  | Event.webpEncodeLossless w h => some (w, h)
  | Event.webpEncodeLossy _ w h => some (w, h)
  | Event.encodeByExtension _ w h => some (w, h)
  | _ => none

/-- Decoded form of the source file stored in `fsA` under `testCodec`. -/
def imgCat : DynamicImage := { width := 10, height := 8, data := [7, 7] }

/-- Variant of `jobWebp` with quality 0, outside the documented range. -/
def jobWebp0 : ImageToSave := { jobWebp with quality := 0 }

/-- Variant of `jobWebp` with quality 200, outside the documented range. -/
def jobWebp200 : ImageToSave := { jobWebp with quality := 200 }

/-- Concrete job with target_width = 0, exercising the absence of any
dimension validation. -/
def jobZero : ImageToSave :=
  { path := "pics/cat.png"
    destination_path := "out/zero.png"
    target_width := 0
    target_height := 5
    output_format := OutputFormat.png
    quality := 50 }

/-- A concrete codec that behaves like `testCodec` except that, like
the real png encoder behind `DynamicImage::save`, the extension-driven
encoder rejects images with a zero dimension. -/
def strictCodec : Codec :=
  { decodeBytes := fun b =>
      match b with
      | w :: h :: px => Except.ok { width := w, height := h, data := px }
      | _ => Except.error "unsupported image format"
    resample := fun _ w h img => img.data.take 1 ++ [w, h]
    rgbaData := fun d => 0 :: d
    webpLossless := fun img => 1 :: img.width :: img.height :: img.data
    webpLossy := fun q img => 2 :: q :: img.width :: img.height :: img.data
    saveByExt := fun ext img =>
      if img.width = 0 ∨ img.height = 0 then
        Except.error "Format error encoding png: zero dimensions not allowed"
      else
        match ext with
        | none => Except.error "unsupported extension"
        | some e => Except.ok (3 :: e.length :: img.width :: img.height :: img.data) }

/-- Fallback value for the projections out of `Except` below. -/
def fallbackFS : FS := { files := [], dirs := [], failWrites := [], failDirs := [] }

/-- Value of a successful filesystem operation. -/
def okFS : Except String FS → FS
  | Except.ok f => f
  | Except.error _ => fallbackFS

/-- Value of a successful `ensureParent` step. -/
def okPairFS : Except String (FS × List Event) → FS × List Event
  | Except.ok p => p
  | Except.error _ => (fallbackFS, [])

instance {e a : Type} [DecidableEq e] [DecidableEq a] : DecidableEq (Except e a) := by
  intro x y
  cases x <;> cases y
  case error.error e1 e2 =>
    exact if h : e1 = e2 then Decidable.isTrue (by rw [h]) else Decidable.isFalse (by simp [h])
  case error.ok => exact Decidable.isFalse (by simp)
  case ok.error => exact Decidable.isFalse (by simp)
  case ok.ok a1 a2 =>
    exact if h : a1 = a2 then Decidable.isTrue (by rw [h]) else Decidable.isFalse (by simp [h])

/-- Characterization of `processJob` on the WebP branch when every step
succeeds: the outcome is `ok` and the trace lists decode, resize, the
directory step, RGBA conversion, the quality-selected WebP encode, and
the write, in this order. -/
theorem processJob_webp_ok (c : Codec) (fs fs1 fs2 : FS) (info : ImageToSave)
    (img : DynamicImage) (trD : List Event)
    (hfmt : info.output_format = OutputFormat.webp)
    (hopen : openImage c fs info.path = Except.ok img)
    (hdir : ensureParent fs info.destination_path = Except.ok (fs1, trD))
    (hwrite : writeFile fs1 info.destination_path
        (webpPayload c info.quality
          (toRgba8 c (resizeExact c img info.target_width info.target_height FilterType.lanczos3)))
      = Except.ok fs2) :
    processJob c fs info =
      (Except.ok (), fs2,
       [Event.decode info.path,
        Event.resize info.target_width info.target_height FilterType.lanczos3]
       ++ trD ++
       [Event.toRgba8 info.target_width info.target_height,
        webpEvent info.quality info.target_width info.target_height,
        Event.writeFile info.destination_path
          (webpPayload c info.quality
            (toRgba8 c (resizeExact c img info.target_width info.target_height FilterType.lanczos3)))]) := by
  simp only [toRgba8, resizeExact] at hwrite
  simp [processJob, hopen, hdir, hfmt, hwrite, toRgba8, resizeExact]

/-- Characterization of `processJob` on the shared
`KeepOriginal | Png | Jpeg` branch when every step succeeds: the
encode step is driven by the destination's extension and the trace
lists decode, resize, the directory step, the extension encode, and
the write, in this order. -/
theorem processJob_save_ok (c : Codec) (fs fs1 fs2 : FS) (info : ImageToSave)
    (img : DynamicImage) (trD : List Event) (bytes : Bytes)
    (hfmt : info.output_format = OutputFormat.keepOriginal ∨
            info.output_format = OutputFormat.png ∨
            info.output_format = OutputFormat.jpeg)
    (hopen : openImage c fs info.path = Except.ok img)
    (hdir : ensureParent fs info.destination_path = Except.ok (fs1, trD))
    (henc : c.saveByExt (extensionOf info.destination_path)
        (resizeExact c img info.target_width info.target_height FilterType.lanczos3)
      = Except.ok bytes)
    (hwrite : writeFile fs1 info.destination_path bytes = Except.ok fs2) :
    processJob c fs info =
      (Except.ok (), fs2,
       [Event.decode info.path,
        Event.resize info.target_width info.target_height FilterType.lanczos3]
       ++ trD ++
       [Event.encodeByExtension (extensionOf info.destination_path)
          info.target_width info.target_height,
        Event.writeFile info.destination_path bytes]) := by
  simp only [resizeExact] at henc
  rcases hfmt with hfmt | hfmt | hfmt <;>
    simp [processJob, hopen, hdir, hfmt, henc, hwrite, resizeExact]

/-- Splitting the loop at a list append: the loop on `pre ++ l` first
runs `pre` and, only if that run succeeded, continues with `l` from the
reached state and count. -/
theorem saveLoop_append (c : Codec) (pre l : List ImageToSave) :
    ∀ (fs : FS) (count : Nat),
      saveLoop c fs count (pre ++ l) =
        match saveLoop c fs count pre with
        | (Except.ok r, fs1, tr1) =>
          match saveLoop c fs1 r.saved_count l with
          | (res, fs2, tr2) => (res, fs2, tr1 ++ tr2)
        | (Except.error e, fs1, tr1) => (Except.error e, fs1, tr1) := by
  induction pre with
  | nil =>
    intro fs count
    simp [saveLoop]
  | cons j rest ih =>
    intro fs count
    rcases hpj : processJob c fs j with ⟨res, fs1, tr⟩
    cases res with
    | error e =>
      simp [saveLoop, hpj]
    | ok u =>
      simp only [List.cons_append, saveLoop, hpj, List.append_eq]
      rw [ih]
      rcases hrest : saveLoop c fs1 (count + 1) rest with ⟨res2, fs2, tr2⟩
      cases res2 with
      | error e2 => simp
      | ok r2 =>
        rcases hl : saveLoop c fs2 r2.saved_count l with ⟨res3, fs3, tr3⟩
        simp

/-- When the loop returns `ok`, the result is `success = true` with
`saved_count` equal to the starting count plus the number of jobs. -/
theorem saveLoop_ok_count (c : Codec) (jobs : List ImageToSave) :
    ∀ (fs : FS) (count : Nat) (r : SaveResult) (fs1 : FS) (tr : List Event),
      saveLoop c fs count jobs = (Except.ok r, fs1, tr) →
      r.success = true ∧ r.saved_count = count + jobs.length := by
  induction jobs with
  | nil =>
    intro fs count r fs1 tr h
    simp [saveLoop] at h
    simp [← h.1]
  | cons j rest ih =>
    intro fs count r fs1 tr h
    rcases hpj : processJob c fs j with ⟨res, fsJ, trJ⟩
    cases res with
    | error e =>
      rw [saveLoop, hpj] at h
      simp at h
    | ok u =>
      rw [saveLoop, hpj] at h
      dsimp only at h
      rcases hrest : saveLoop c fsJ (count + 1) rest with ⟨res2, fs2, tr2⟩
      rw [hrest] at h
      simp at h
      have := ih fsJ (count + 1) r fs2 tr2 (by rw [hrest, h.1])
      refine ⟨this.1, ?_⟩
      rw [this.2]
      simp
      omega

/-- C10: For the empty batch, `save_images` performs no decode, no
resize, and no filesystem write — the trace is empty and the filesystem
is unchanged — and returns `ok` with `success = true` and
`saved_count = 0`. -/
theorem save_images_empty_batch (c : Codec) (fs : FS) :
    save_images c fs [] = (Except.ok { success := true, saved_count := 0 }, fs, []) :=
  rfl

/-- C4: For every batch in which every job completes all pipeline steps
without error (i.e. the run returns `ok`), the result has
`success = true` and `saved_count` equal to the number of jobs. -/
theorem save_images_all_jobs_ok (c : Codec) (fs fs1 : FS) (jobs : List ImageToSave)
    (r : SaveResult) (tr : List Event)
    (h : save_images c fs jobs = (Except.ok r, fs1, tr)) :
    r.success = true ∧ r.saved_count = jobs.length := by
  have := saveLoop_ok_count c jobs fs 0 r fs1 tr h
  simpa using this

/-- Witness for C4 on a concrete two-job batch that fully succeeds. -/
theorem save_images_all_jobs_ok_witness :
    ({ success := true, saved_count := 2 } : SaveResult).success = true ∧
    ({ success := true, saved_count := 2 } : SaveResult).saved_count
      = ([jobWebp, jobPng] : List ImageToSave).length :=
  save_images_all_jobs_ok testCodec fsA
    (save_images testCodec fsA [jobWebp, jobPng]).2.1
    [jobWebp, jobPng] { success := true, saved_count := 2 }
    (save_images testCodec fsA [jobWebp, jobPng]).2.2 (by rfl)

/-- C1: If the jobs before `j` all succeed and processing `j` fails,
then `save_images` on `pre ++ j :: rest` returns that error, with the
filesystem and the trace exactly those reached at the failure — in
particular the outcome does not depend on `rest`, so no later job's
pipeline (decode, resize, encode, write) is invoked after the first
failure, and an error string is returned instead of a result. -/
theorem save_images_aborts_on_first_failure
    (c : Codec) (fs fs1 fsE : FS) (pre rest : List ImageToSave) (j : ImageToSave)
    (r : SaveResult) (tr1 trE : List Event) (e : String)
    (hpre : saveLoop c fs 0 pre = (Except.ok r, fs1, tr1))
    (hj : processJob c fs1 j = (Except.error e, fsE, trE)) :
    save_images c fs (pre ++ j :: rest) = (Except.error e, fsE, tr1 ++ trE) := by
  unfold save_images
  rw [saveLoop_append c pre (j :: rest) fs 0, hpre]
  dsimp only
  rw [saveLoop, hj]

/-- Witness for C1: a three-job batch whose middle job has a missing
source file; the run aborts with that decode error. -/
theorem save_images_aborts_on_first_failure_witness :
    save_images testCodec fsA ([jobWebp] ++ jobMissing :: [jobPng]) =
      (Except.error "No such file or directory: missing.png",
       (processJob testCodec (saveLoop testCodec fsA 0 [jobWebp]).2.1 jobMissing).2.1,
       (saveLoop testCodec fsA 0 [jobWebp]).2.2
         ++ (processJob testCodec (saveLoop testCodec fsA 0 [jobWebp]).2.1 jobMissing).2.2) :=
  save_images_aborts_on_first_failure testCodec fsA
    (saveLoop testCodec fsA 0 [jobWebp]).2.1
    (processJob testCodec (saveLoop testCodec fsA 0 [jobWebp]).2.1 jobMissing).2.1
    [jobWebp] [jobPng] jobMissing
    { success := true, saved_count := 1 }
    (saveLoop testCodec fsA 0 [jobWebp]).2.2
    (processJob testCodec (saveLoop testCodec fsA 0 [jobWebp]).2.1 jobMissing).2.2
    "No such file or directory: missing.png"
    (by rfl) (by rfl)



theorem ensureParent_trace (fs fs1 : FS) (dest : String) (trD : List Event)
    (h : ensureParent fs dest = Except.ok (fs1, trD)) :
    trD = [] ∨ ∃ par, parentDir dest = some par ∧ trD = [Event.createDirAll par] := by
  unfold ensureParent at h
  rcases hp : parentDir dest with _ | par <;> rw [hp] at h <;> dsimp only at h
  · left
    simp at h
    first
    | exact h.2
    | exact h.2.symm
  · rcases hc : createDirAll fs par with eD | fs2 <;> rw [hc] at h <;> dsimp only at h
    · simp at h
    · simp at h
      right
      refine ⟨par, rfl, ?_⟩
      first
      | exact h.2
      | exact h.2.symm

theorem processJob_nonwebp_trace_shape (c : Codec) (fs : FS) (info : ImageToSave)
    (hfmt : info.output_format = OutputFormat.keepOriginal ∨
            info.output_format = OutputFormat.png ∨
            info.output_format = OutputFormat.jpeg) :
    ∀ e ∈ (processJob c fs info).2.2,
      e = Event.decode info.path
      ∨ e = Event.resize info.target_width info.target_height FilterType.lanczos3
      ∨ (∃ par, parentDir info.destination_path = some par ∧ e = Event.createDirAll par)
      ∨ e = Event.encodeByExtension (extensionOf info.destination_path)
            info.target_width info.target_height
      ∨ ∃ b, e = Event.writeFile info.destination_path b := by
  intro e he
  simp only [processJob] at he
  rcases hopen : openImage c fs info.path with eo | img <;> rw [hopen] at he <;> dsimp only at he
  · simp at he
    tauto
  · rcases hdir : ensureParent fs info.destination_path with ed | p <;> rw [hdir] at he <;> dsimp only at he
    · simp at he
      tauto
    · rcases p with ⟨fs1, trD⟩
      have htr := ensureParent_trace fs fs1 info.destination_path trD hdir
      rcases hfmt with hfmt | hfmt | hfmt <;> rw [hfmt] at he <;> dsimp only at he <;>
        rcases hENC : c.saveByExt (extensionOf info.destination_path)
            (resizeExact c img info.target_width info.target_height FilterType.lanczos3)
          with eE | bytes <;> rw [hENC] at he <;> dsimp only at he
      all_goals (
        first
        | (rcases hw : writeFile fs1 info.destination_path bytes with eW | fs2 <;>
             rw [hw] at he <;> dsimp only at he)
        | skip)
      all_goals (
        simp only [resizeExact] at he
        simp at he
        rcases htr with htr | ⟨par, hpar, htr⟩ <;> subst htr <;> simp at he <;> aesop)

theorem processJob_webp_trace_shape (c : Codec) (fs : FS) (info : ImageToSave)
    (hfmt : info.output_format = OutputFormat.webp) :
    ∀ e ∈ (processJob c fs info).2.2,
      e = Event.decode info.path
      ∨ e = Event.resize info.target_width info.target_height FilterType.lanczos3
      ∨ (∃ par, parentDir info.destination_path = some par ∧ e = Event.createDirAll par)
      ∨ e = Event.toRgba8 info.target_width info.target_height
      ∨ e = webpEvent info.quality info.target_width info.target_height
      ∨ ∃ b, e = Event.writeFile info.destination_path b := by
  intro e he
  simp only [processJob] at he
  rcases hopen : openImage c fs info.path with eo | img <;> rw [hopen] at he <;> dsimp only at he
  · simp at he
    tauto
  · rcases hdir : ensureParent fs info.destination_path with ed | p <;> rw [hdir] at he <;> dsimp only at he
    · simp at he
      tauto
    · rcases p with ⟨fs1, trD⟩
      have htr := ensureParent_trace fs fs1 info.destination_path trD hdir
      rw [hfmt] at he
      dsimp only at he
      rcases hw : writeFile fs1 info.destination_path
          (webpPayload c info.quality
            (toRgba8 c (resizeExact c img info.target_width info.target_height FilterType.lanczos3)))
        with eW | fs2 <;> rw [hw] at he <;> dsimp only at he <;>
      simp only [toRgba8, resizeExact] at he <;> simp at he <;>
        rcases htr with htr | ⟨par, hpar, htr⟩ <;> subst htr <;> simp at he <;> aesop

/-- C2: For a WebP job whose pipeline reaches the encode step, the
encoder input is the 8-bit RGBA conversion of the resized buffer, the
lossless WebP mode is selected if and only if the quality equals 100,
and every quality in [1,99] selects the lossy encoder at exactly that
numeric quality level. -/
theorem webp_lossless_iff_quality_100
    (c : Codec) (fs fs1 fs2 : FS) (info : ImageToSave) (img : DynamicImage) (trD : List Event)
    (hfmt : info.output_format = OutputFormat.webp)
    (hopen : openImage c fs info.path = Except.ok img)
    (hdir : ensureParent fs info.destination_path = Except.ok (fs1, trD))
    (hwrite : writeFile fs1 info.destination_path
        (webpPayload c info.quality
          (toRgba8 c (resizeExact c img info.target_width info.target_height FilterType.lanczos3)))
      = Except.ok fs2) :
    (processJob c fs info).2.2
      = [Event.decode info.path,
         Event.resize info.target_width info.target_height FilterType.lanczos3]
        ++ trD ++
        [Event.toRgba8 info.target_width info.target_height,
         webpEvent info.quality info.target_width info.target_height,
         Event.writeFile info.destination_path
           (webpPayload c info.quality
             (toRgba8 c (resizeExact c img info.target_width info.target_height FilterType.lanczos3)))]
    ∧ (webpEvent info.quality info.target_width info.target_height
         = Event.webpEncodeLossless info.target_width info.target_height ↔ info.quality = 100)
    ∧ (info.quality = 100 →
         webpPayload c info.quality
             (toRgba8 c (resizeExact c img info.target_width info.target_height FilterType.lanczos3))
           = c.webpLossless
               (toRgba8 c (resizeExact c img info.target_width info.target_height FilterType.lanczos3)))
    ∧ (∀ q, 1 ≤ q → q ≤ 99 →
         webpEvent q info.target_width info.target_height
             = Event.webpEncodeLossy q info.target_width info.target_height
         ∧ webpPayload c q
               (toRgba8 c (resizeExact c img info.target_width info.target_height FilterType.lanczos3))
             = c.webpLossy q
                 (toRgba8 c (resizeExact c img info.target_width info.target_height FilterType.lanczos3))) := by
  have hshape := processJob_webp_ok c fs fs1 fs2 info img trD hfmt hopen hdir hwrite
  refine ⟨by rw [hshape], ?_, ?_, ?_⟩
  · constructor
    · intro h
      by_contra hq
      simp [webpEvent, hq] at h
    · intro h
      simp [webpEvent, h]
  · intro h
    simp [webpPayload, h]
  · intro q h1 h99
    have hq : q ≠ 100 := by omega
    exact ⟨by simp [webpEvent, hq], by simp [webpPayload, hq]⟩

/-- C9: The quality field is not validated: for a WebP job with any
quality other than 100 — including 0 and values above 100 — the lossy
encoder is invoked with exactly that value (the `u8 → f32` cast is
value-preserving) and the job succeeds; no configuration error is
raised for out-of-range quality. -/
theorem webp_quality_not_validated
    (c : Codec) (fs fs1 fs2 : FS) (info : ImageToSave) (img : DynamicImage) (trD : List Event)
    (hfmt : info.output_format = OutputFormat.webp)
    (hq : info.quality ≠ 100)
    (hopen : openImage c fs info.path = Except.ok img)
    (hdir : ensureParent fs info.destination_path = Except.ok (fs1, trD))
    (hwrite : writeFile fs1 info.destination_path
        (webpPayload c info.quality
          (toRgba8 c (resizeExact c img info.target_width info.target_height FilterType.lanczos3)))
      = Except.ok fs2) :
    (processJob c fs info).1 = Except.ok ()
    ∧ Event.webpEncodeLossy info.quality info.target_width info.target_height
        ∈ (processJob c fs info).2.2
    ∧ webpPayload c info.quality
          (toRgba8 c (resizeExact c img info.target_width info.target_height FilterType.lanczos3))
        = c.webpLossy info.quality
            (toRgba8 c (resizeExact c img info.target_width info.target_height FilterType.lanczos3)) := by
  have hshape := processJob_webp_ok c fs fs1 fs2 info img trD hfmt hopen hdir hwrite
  refine ⟨by rw [hshape], ?_, by simp [webpPayload, hq]⟩
  rw [hshape]
  simp [webpEvent, hq]

/-- C5: For every job whose source decodes, the decoded image is
resampled by `resize_exact` to exactly `target_width × target_height`
with the Lanczos 3-lobe filter (no aspect-ratio preservation, no
cropping), and every encode step of the job operates on a buffer of
exactly those dimensions, so the written image has width
`target_width` and height `target_height`. -/
theorem resize_exact_target_dimensions
    (c : Codec) (fs : FS) (info : ImageToSave) (img : DynamicImage)
    (hopen : openImage c fs info.path = Except.ok img) :
    (processJob c fs info).2.2.take 2
      = [Event.decode info.path,
         Event.resize info.target_width info.target_height FilterType.lanczos3]
    ∧ (resizeExact c img info.target_width info.target_height FilterType.lanczos3).width
        = info.target_width
    ∧ (resizeExact c img info.target_width info.target_height FilterType.lanczos3).height
        = info.target_height
    ∧ ∀ e ∈ (processJob c fs info).2.2, ∀ w h, encodeDims e = some (w, h) →
        w = info.target_width ∧ h = info.target_height := by
  refine ⟨?_, rfl, rfl, ?_⟩
  · simp only [processJob]
    rw [hopen]
    dsimp only
    rcases hdir : ensureParent fs info.destination_path with ed | ⟨fs1, trD⟩ <;> dsimp only
    · rfl
    · rcases hfm : info.output_format <;> dsimp only
      case webp =>
        rcases hw : writeFile fs1 info.destination_path
            (webpPayload c info.quality
              (toRgba8 c (resizeExact c img info.target_width info.target_height FilterType.lanczos3)))
          with eW | fs2 <;> dsimp only <;> simp
      all_goals (
        rcases hENC : c.saveByExt (extensionOf info.destination_path)
            (resizeExact c img info.target_width info.target_height FilterType.lanczos3)
          with eE | bytes <;> dsimp only
        · simp
        · rcases hw : writeFile fs1 info.destination_path bytes with eW | fs2 <;> dsimp only <;> simp)
  · intro e he w h hdim
    rcases hfm : info.output_format
    case webp =>
      have hsh := processJob_webp_trace_shape c fs info hfm e he
      rcases hsh with h1 | h1 | ⟨par, hpar, h1⟩ | h1 | h1 | ⟨b, h1⟩ <;> subst h1
      · simp [encodeDims] at hdim
      · simp [encodeDims] at hdim
      · simp [encodeDims] at hdim
      · simp [encodeDims] at hdim
        exact ⟨hdim.1.symm, hdim.2.symm⟩
      · by_cases hq : info.quality = 100 <;>
          simp [webpEvent, hq, encodeDims] at hdim <;>
          exact ⟨hdim.1.symm, hdim.2.symm⟩
      · simp [encodeDims] at hdim
    all_goals (
      have hsh := processJob_nonwebp_trace_shape c fs info (by simp [hfm]) e he
      rcases hsh with h1 | h1 | ⟨par, hpar, h1⟩ | h1 | ⟨b, h1⟩ <;> subst h1 <;>
        simp [encodeDims] at hdim <;> exact ⟨hdim.1.symm, hdim.2.symm⟩)

/-- C6: For jobs whose output format is `KeepOriginal`, `Png` or
`Jpeg`, `save_images` takes a single shared encode path: processing is
byte-for-byte identical across the three tags and across any two
quality values (quality is never applied), no WebP encode step occurs,
and the encode step that does occur is driven by the destination
path's file extension, not by the format tag. -/
theorem shared_encode_path_extension_driven
    (c : Codec) (fs : FS) (info : ImageToSave) (f1 f2 : OutputFormat) (q1 q2 : Nat)
    (h1 : f1 = OutputFormat.keepOriginal ∨ f1 = OutputFormat.png ∨ f1 = OutputFormat.jpeg)
    (h2 : f2 = OutputFormat.keepOriginal ∨ f2 = OutputFormat.png ∨ f2 = OutputFormat.jpeg) :
    processJob c fs { info with output_format := f1, quality := q1 }
      = processJob c fs { info with output_format := f2, quality := q2 }
    ∧ ∀ e ∈ (processJob c fs { info with output_format := f1, quality := q1 }).2.2,
        (∀ w h, e ≠ Event.toRgba8 w h)
        ∧ (∀ w h, e ≠ Event.webpEncodeLossless w h)
        ∧ (∀ q w h, e ≠ Event.webpEncodeLossy q w h)
        ∧ (∀ ext w h, e = Event.encodeByExtension ext w h →
             ext = extensionOf info.destination_path) := by
  constructor
  · rcases h1 with h1 | h1 | h1 <;> rcases h2 with h2 | h2 | h2 <;> subst h1 <;> subst h2 <;> rfl
  · intro e he
    have hsh := processJob_nonwebp_trace_shape c fs
      { info with output_format := f1, quality := q1 } (by simpa using h1) e he
    rcases hsh with hh | hh | ⟨par, hpar, hh⟩ | hh | ⟨b, hh⟩ <;> subst hh <;>
      refine ⟨fun w h => by simp, fun w h => by simp, fun q w h => by simp,
              fun ext w h heq => ?_⟩
    · simp at heq
    · simp at heq
    · simp at heq
    · simp at heq
      exact heq.1.symm
    · simp at heq



/-- Witness for C2 at the concrete WebP job of quality 80. -/
theorem webp_lossless_iff_quality_100_witness :
    (webpEvent 80 3 2 = Event.webpEncodeLossless 3 2 ↔ (80 : Nat) = 100)
    ∧ webpEvent 80 3 2 = Event.webpEncodeLossy 80 3 2
    ∧ webpPayload testCodec 80
          (toRgba8 testCodec (resizeExact testCodec imgCat 3 2 FilterType.lanczos3))
        = testCodec.webpLossy 80
            (toRgba8 testCodec (resizeExact testCodec imgCat 3 2 FilterType.lanczos3)) := by
  have h := webp_lossless_iff_quality_100 testCodec fsA
    (okPairFS (ensureParent fsA jobWebp.destination_path)).1
    (okFS (writeFile (okPairFS (ensureParent fsA jobWebp.destination_path)).1
      jobWebp.destination_path
      (webpPayload testCodec jobWebp.quality
        (toRgba8 testCodec
          (resizeExact testCodec imgCat jobWebp.target_width jobWebp.target_height
            FilterType.lanczos3)))))
    jobWebp imgCat
    (okPairFS (ensureParent fsA jobWebp.destination_path)).2
    rfl rfl rfl rfl
  exact ⟨h.2.1, (h.2.2.2 80 (by decide) (by decide)).1, (h.2.2.2 80 (by decide) (by decide)).2⟩

/-- Witness for C9 at the concrete out-of-range qualities 0 and 200. -/
theorem webp_quality_not_validated_witness :
    ((processJob testCodec fsA jobWebp0).1 = Except.ok ()
      ∧ Event.webpEncodeLossy 0 3 2 ∈ (processJob testCodec fsA jobWebp0).2.2)
    ∧ ((processJob testCodec fsA jobWebp200).1 = Except.ok ()
      ∧ Event.webpEncodeLossy 200 3 2 ∈ (processJob testCodec fsA jobWebp200).2.2) := by
  have h0 := webp_quality_not_validated testCodec fsA
    (okPairFS (ensureParent fsA jobWebp0.destination_path)).1
    (okFS (writeFile (okPairFS (ensureParent fsA jobWebp0.destination_path)).1
      jobWebp0.destination_path
      (webpPayload testCodec jobWebp0.quality
        (toRgba8 testCodec
          (resizeExact testCodec imgCat jobWebp0.target_width jobWebp0.target_height
            FilterType.lanczos3)))))
    jobWebp0 imgCat
    (okPairFS (ensureParent fsA jobWebp0.destination_path)).2
    rfl (by decide) rfl rfl rfl
  have h2 := webp_quality_not_validated testCodec fsA
    (okPairFS (ensureParent fsA jobWebp200.destination_path)).1
    (okFS (writeFile (okPairFS (ensureParent fsA jobWebp200.destination_path)).1
      jobWebp200.destination_path
      (webpPayload testCodec jobWebp200.quality
        (toRgba8 testCodec
          (resizeExact testCodec imgCat jobWebp200.target_width jobWebp200.target_height
            FilterType.lanczos3)))))
    jobWebp200 imgCat
    (okPairFS (ensureParent fsA jobWebp200.destination_path)).2
    rfl (by decide) rfl rfl rfl
  exact ⟨⟨h0.1, h0.2.1⟩, ⟨h2.1, h2.2.1⟩⟩

/-- Witness for C5 at the concrete PNG job. -/
theorem resize_exact_target_dimensions_witness :
    (processJob testCodec fsA jobPng).2.2.take 2
      = [Event.decode "pics/cat.png", Event.resize 4 5 FilterType.lanczos3]
    ∧ (resizeExact testCodec imgCat 4 5 FilterType.lanczos3).width = 4
    ∧ (resizeExact testCodec imgCat 4 5 FilterType.lanczos3).height = 5
    ∧ ∀ e ∈ (processJob testCodec fsA jobPng).2.2, ∀ w h, encodeDims e = some (w, h) →
        w = 4 ∧ h = 5 :=
  resize_exact_target_dimensions testCodec fsA jobPng imgCat rfl

/-- Witness for C6 at the concrete job, comparing the `KeepOriginal`
tag at quality 1 against the `Jpeg` tag at quality 99. -/
theorem shared_encode_path_extension_driven_witness :
    processJob testCodec fsA
        { jobPng with output_format := OutputFormat.keepOriginal, quality := 1 }
      = processJob testCodec fsA
          { jobPng with output_format := OutputFormat.jpeg, quality := 99 }
    ∧ ∀ e ∈ (processJob testCodec fsA
          { jobPng with output_format := OutputFormat.keepOriginal, quality := 1 }).2.2,
        (∀ w h, e ≠ Event.toRgba8 w h)
        ∧ (∀ w h, e ≠ Event.webpEncodeLossless w h)
        ∧ (∀ q w h, e ≠ Event.webpEncodeLossy q w h)
        ∧ (∀ ext w h, e = Event.encodeByExtension ext w h →
             ext = extensionOf "out/cat.png") :=
  shared_encode_path_extension_driven testCodec fsA jobPng
    OutputFormat.keepOriginal OutputFormat.jpeg 1 99
    (Or.inl rfl) (Or.inr (Or.inr rfl))




theorem createDirAll_ok_state (fs fs1 : FS) (dir : String)
    (h : createDirAll fs dir = Except.ok fs1) :
    fs1.dirs = dirChain dir ++ fs.dirs ∧ fs1.files = fs.files
    ∧ fs1.failWrites = fs.failWrites ∧ fs1.failDirs = fs.failDirs := by
  unfold createDirAll at h
  split at h
  · simp at h
  · simp at h
    subst h
    exact ⟨rfl, rfl, rfl, rfl⟩

theorem writeFile_ok_state (fs fs2 : FS) (p : String) (b : Bytes)
    (h : writeFile fs p b = Except.ok fs2) :
    fs2.dirs = fs.dirs ∧ fs2.failWrites = fs.failWrites ∧ fs2.failDirs = fs.failDirs
    ∧ fs2.files = (p, b) :: fs.files := by
  unfold writeFile at h
  split at h
  · simp at h
  · simp at h
    subst h
    exact ⟨rfl, rfl, rfl, rfl⟩

theorem ensureParent_some_inv (fs fs1 : FS) (dest par : String) (trD : List Event)
    (hpar : parentDir dest = some par)
    (h : ensureParent fs dest = Except.ok (fs1, trD)) :
    createDirAll fs par = Except.ok fs1 ∧ trD = [Event.createDirAll par] := by
  unfold ensureParent at h
  rw [hpar] at h
  dsimp only at h
  rcases hc : createDirAll fs par with eD | fsD <;> rw [hc] at h <;> simp at h
  refine ⟨?_, h.2.symm⟩
  rw [h.1]



theorem createDirAll_ok_of_ok (fs fs' fs1 : FS) (dir : String)
    (hfd : fs'.failDirs = fs.failDirs)
    (h : createDirAll fs dir = Except.ok fs1) :
    ∃ fs2, createDirAll fs' dir = Except.ok fs2 := by
  unfold createDirAll at h ⊢
  rw [hfd]
  split at h
  · simp at h
  · rename_i hg
    rw [if_neg hg]
    exact ⟨_, rfl⟩

/-- C8: For every job that completes (reaches the write step), the
parent directory of the destination path and all its missing ancestor
directories exist in the final filesystem and the `create_dir_all`
step occurs in the trace strictly before the write of the destination
file; moreover re-running `create_dir_all` for the same destination on
the resulting filesystem does not error even though the directories
already exist. -/
theorem parent_directories_created_before_write
    (c : Codec) (fs fsJ : FS) (info : ImageToSave) (tr : List Event) (par : String)
    (hrun : processJob c fs info = (Except.ok (), fsJ, tr))
    (hpar : parentDir info.destination_path = some par) :
    (∀ d ∈ dirChain par, d ∈ fsJ.dirs)
    ∧ (∃ mid b, tr = Event.decode info.path
          :: Event.resize info.target_width info.target_height FilterType.lanczos3
          :: Event.createDirAll par :: (mid ++ [Event.writeFile info.destination_path b]))
    ∧ (∃ fs2, createDirAll fsJ par = Except.ok fs2) := by
  simp only [processJob] at hrun
  rcases hopen : openImage c fs info.path with eo | img <;> rw [hopen] at hrun <;>
    dsimp only at hrun
  · simp at hrun
  · rcases hdir : ensureParent fs info.destination_path with ed | ⟨fs1, trD⟩ <;>
      rw [hdir] at hrun <;> dsimp only at hrun
    · simp at hrun
    · obtain ⟨hcd, htrD⟩ := ensureParent_some_inv fs fs1 info.destination_path par trD hpar hdir
      have hst := createDirAll_ok_state fs fs1 par hcd
      subst htrD
      rcases hfm : info.output_format <;> rw [hfm] at hrun <;> dsimp only at hrun
      case webp =>
        rcases hw : writeFile fs1 info.destination_path
            (webpPayload c info.quality
              (toRgba8 c (resizeExact c img info.target_width info.target_height FilterType.lanczos3)))
          with eW | fs2 <;> rw [hw] at hrun <;> dsimp only at hrun
        · simp at hrun
        · have hws := writeFile_ok_state fs1 fs2 info.destination_path _ hw
          have hfs : fs2 = fsJ := congrArg (fun x => x.2.1) hrun
          have htr := congrArg (fun x => x.2.2) hrun
          dsimp only at htr
          refine ⟨?_, ?_, ?_⟩
          · intro d hd
            rw [← hfs, hws.1, hst.1]
            exact List.mem_append_left _ hd
          · refine ⟨[Event.toRgba8 info.target_width info.target_height,
                     webpEvent info.quality info.target_width info.target_height],
                    webpPayload c info.quality
                      (toRgba8 c (resizeExact c img info.target_width info.target_height
                        FilterType.lanczos3)), ?_⟩
            rw [← htr]
            simp [toRgba8, resizeExact]
          · refine createDirAll_ok_of_ok fs fsJ fs1 par ?_ hcd
            rw [← hfs, hws.2.2.1, hst.2.2.2]
      all_goals (
        rcases hENC : c.saveByExt (extensionOf info.destination_path)
            (resizeExact c img info.target_width info.target_height FilterType.lanczos3)
          with eE | bytes <;> rw [hENC] at hrun <;> dsimp only at hrun
        · simp at hrun
        · rcases hw : writeFile fs1 info.destination_path bytes with eW | fs2 <;>
            rw [hw] at hrun <;> dsimp only at hrun
          · simp at hrun
          · have hws := writeFile_ok_state fs1 fs2 info.destination_path _ hw
            have hfs : fs2 = fsJ := congrArg (fun x => x.2.1) hrun
            have htr := congrArg (fun x => x.2.2) hrun
            dsimp only at htr
            refine ⟨?_, ?_, ?_⟩
            · intro d hd
              rw [← hfs, hws.1, hst.1]
              exact List.mem_append_left _ hd
            · refine ⟨[Event.encodeByExtension (extensionOf info.destination_path)
                        info.target_width info.target_height], bytes, ?_⟩
              rw [← htr]
              simp [resizeExact]
            · refine createDirAll_ok_of_ok fs fsJ fs1 par ?_ hcd
              rw [← hfs, hws.2.2.1, hst.2.2.2])







theorem processJob_trace_cons (c : Codec) (fs : FS) (info : ImageToSave) (img : DynamicImage)
    (hopen : openImage c fs info.path = Except.ok img) :
    ∃ tl, (processJob c fs info).2.2
      = Event.decode info.path
        :: Event.resize info.target_width info.target_height FilterType.lanczos3 :: tl := by
  simp only [processJob]
  rw [hopen]
  dsimp only
  rcases hdir : ensureParent fs info.destination_path with ed | ⟨fs1, trD⟩ <;> dsimp only
  · exact ⟨[], rfl⟩
  · rcases hfm : info.output_format <;> dsimp only
    case webp =>
      rcases hw : writeFile fs1 info.destination_path
          (webpPayload c info.quality
            (toRgba8 c (resizeExact c img info.target_width info.target_height FilterType.lanczos3)))
        with eW | fs2 <;> dsimp only <;> exact ⟨_, rfl⟩
    all_goals (
      rcases hENC : c.saveByExt (extensionOf info.destination_path)
          (resizeExact c img info.target_width info.target_height FilterType.lanczos3)
        with eE | bytes <;> dsimp only
      · exact ⟨_, rfl⟩
      · rcases hw : writeFile fs1 info.destination_path bytes with eW | fs2 <;> dsimp only <;>
          exact ⟨_, rfl⟩)

/-- C3 (amended): `save_images` performs no validation of the target
dimensions: a job whose target_width or target_height is 0 is not
rejected as a configuration error before the pipeline runs; decode is
attempted first and, when it succeeds, resize is invoked with exactly
the zero target dimension.  Any failure for such a job arises only in
a later step (for instance the encoder rejecting the degenerate
image) and is reported as that step's ordinary error string. -/
theorem zero_dimension_not_validated
    (c : Codec) (fs : FS) (info : ImageToSave) (img : DynamicImage) (rest : List ImageToSave)
    (hzero : info.target_width = 0 ∨ info.target_height = 0)
    (hopen : openImage c fs info.path = Except.ok img) :
    (save_images c fs (info :: rest)).2.2.take 2
      = [Event.decode info.path,
         Event.resize info.target_width info.target_height FilterType.lanczos3] := by
  obtain ⟨tl, htl⟩ := processJob_trace_cons c fs info img hopen
  unfold save_images
  rw [saveLoop]
  rcases hpj : processJob c fs info with ⟨res, fsJ, trJ⟩
  rw [hpj] at htl
  dsimp only at htl
  subst htl
  cases res <;> dsimp only
  · simp
  · rcases hrest : saveLoop c fsJ (0 + 1) rest with ⟨res2, fs2, tr2⟩
    dsimp only
    simp

/-- Counterexample to C3 as stated: for the concrete job `jobZero`
with `target_width = 0` (run under `strictCodec`, whose extension
encoder rejects zero-dimension images as the real png encoder does),
`save_images` does not reject the job as a configuration error before
the pipeline: decode and resize (with width 0) ARE attempted, the
directory step runs, and the job then fails at the encode step with
that encoder's ordinary error string — the trace equality shows the
exact steps taken and that no write occurs. -/
theorem zero_dimension_rejected_counterexample :
    jobZero.target_width = 0
    ∧ (save_images strictCodec fsA [jobZero]).2.2
        = [Event.decode "pics/cat.png",
           Event.resize 0 5 FilterType.lanczos3,
           Event.createDirAll "out",
           Event.encodeByExtension (some "png") 0 5]
    ∧ (save_images strictCodec fsA [jobZero]).1
        = Except.error "Format error encoding png: zero dimensions not allowed"
    ∧ (save_images strictCodec fsA [jobZero]).2.1.files = fsA.files :=
  ⟨rfl, by decide, rfl, by decide⟩

/-- Witness for the amended C3 at the concrete zero-width job, under
the codec whose encoder rejects zero-dimension images. -/
theorem zero_dimension_not_validated_witness :
    (save_images strictCodec fsA [jobZero]).2.2.take 2
      = [Event.decode "pics/cat.png", Event.resize 0 5 FilterType.lanczos3] :=
  zero_dimension_not_validated strictCodec fsA jobZero imgCat [] (Or.inl rfl) rfl



/-- Witness for C8 at the concrete PNG job. -/
theorem parent_directories_created_before_write_witness :
    (∀ d ∈ dirChain "out", d ∈ (processJob testCodec fsA jobPng).2.1.dirs)
    ∧ (∃ mid b, (processJob testCodec fsA jobPng).2.2
          = Event.decode "pics/cat.png" :: Event.resize 4 5 FilterType.lanczos3
            :: Event.createDirAll "out" :: (mid ++ [Event.writeFile "out/cat.png" b]))
    ∧ (∃ fs2, createDirAll (processJob testCodec fsA jobPng).2.1 "out" = Except.ok fs2) :=
  parent_directories_created_before_write testCodec fsA
    (processJob testCodec fsA jobPng).2.1 jobPng
    (processJob testCodec fsA jobPng).2.2 "out" rfl rfl



/-- Reading through a filesystem whose files gained one entry. -/
theorem lookupF_cons (fs fs' : FS) (q p : String) (b : Bytes)
    (h : fs'.files = (q, b) :: fs.files) :
    lookupF fs' p = if p = q then some b else lookupF fs p := by
  unfold lookupF
  rw [h]
  by_cases hqp : q = p
  · subst hqp
    simp [List.find?]
  · rw [List.find?_cons_of_neg]
    · rw [if_neg (fun hpq => hqp hpq.symm)]
    · simp [hqp]

/-- The `ensureParent` step succeeds or fails identically on two
filesystems with the same `failDirs`, emits the same trace, and only
changes the `dirs` component. -/
theorem ensureParent_det (fsA fsB : FS) (dest : String)
    (hD : fsB.failDirs = fsA.failDirs) :
    (∃ e, ensureParent fsA dest = Except.error e ∧ ensureParent fsB dest = Except.error e)
    ∨ (∃ fs1A fs1B trD,
        ensureParent fsA dest = Except.ok (fs1A, trD)
        ∧ ensureParent fsB dest = Except.ok (fs1B, trD)
        ∧ fs1A.files = fsA.files ∧ fs1B.files = fsB.files
        ∧ fs1A.failWrites = fsA.failWrites ∧ fs1B.failWrites = fsB.failWrites
        ∧ fs1A.failDirs = fsA.failDirs ∧ fs1B.failDirs = fsB.failDirs) := by
  unfold ensureParent createDirAll
  rcases hp : parentDir dest with _ | par <;> dsimp only
  · right
    exact ⟨fsA, fsB, [], rfl, rfl, rfl, rfl, rfl, rfl, rfl, rfl⟩
  · rw [hD]
    by_cases hg : (dirChain par).any (fun d => fsA.failDirs.contains d)
    · rw [if_pos hg, if_pos hg]
      left
      exact ⟨_, rfl, rfl⟩
    · rw [if_neg hg, if_neg hg]
      right
      exact ⟨_, _, _, rfl, rfl, rfl, rfl, rfl, rfl, rfl, rfl⟩

/-- The write step succeeds or fails identically on two filesystems
with the same `failWrites`, and on success prepends the same entry. -/
theorem writeFile_det (fsA fsB : FS) (p : String) (b : Bytes)
    (hW : fsB.failWrites = fsA.failWrites) :
    (∃ e, writeFile fsA p b = Except.error e ∧ writeFile fsB p b = Except.error e)
    ∨ (∃ fs2A fs2B,
        writeFile fsA p b = Except.ok fs2A
        ∧ writeFile fsB p b = Except.ok fs2B
        ∧ fs2A.files = (p, b) :: fsA.files ∧ fs2B.files = (p, b) :: fsB.files
        ∧ fs2A.failWrites = fsA.failWrites ∧ fs2B.failWrites = fsB.failWrites
        ∧ fs2A.failDirs = fsA.failDirs ∧ fs2B.failDirs = fsB.failDirs) := by
  unfold writeFile
  rw [hW]
  by_cases hg : fsA.failWrites.contains p
  · rw [if_pos hg, if_pos hg]
    left
    exact ⟨_, rfl, rfl⟩
  · rw [if_neg hg, if_neg hg]
    right
    exact ⟨_, _, rfl, rfl, rfl, rfl, rfl, rfl, rfl, rfl⟩

/-- Per-job determinism: two filesystems agreeing on the job's source
content and on the failure environment yield the same step outcome and
the same trace; the failure environment is preserved, and the files
component either stays unchanged (no write event) or gains exactly the
written destination entry, identically on both sides. -/
theorem processJob_det (c : Codec) (info : ImageToSave) (fsA fsB : FS)
    (hW : fsB.failWrites = fsA.failWrites)
    (hD : fsB.failDirs = fsA.failDirs)
    (hsrc : lookupF fsB info.path = lookupF fsA info.path) :
    (processJob c fsB info).1 = (processJob c fsA info).1
    ∧ (processJob c fsB info).2.2 = (processJob c fsA info).2.2
    ∧ (processJob c fsA info).2.1.failWrites = fsA.failWrites
    ∧ (processJob c fsA info).2.1.failDirs = fsA.failDirs
    ∧ (processJob c fsB info).2.1.failWrites = fsB.failWrites
    ∧ (processJob c fsB info).2.1.failDirs = fsB.failDirs
    ∧ (((processJob c fsA info).2.1.files = fsA.files
        ∧ (processJob c fsB info).2.1.files = fsB.files
        ∧ ∀ p b, Event.writeFile p b ∉ (processJob c fsA info).2.2)
      ∨ (∃ b, (processJob c fsA info).2.1.files = (info.destination_path, b) :: fsA.files
          ∧ (processJob c fsB info).2.1.files = (info.destination_path, b) :: fsB.files
          ∧ ∀ p b', Event.writeFile p b' ∈ (processJob c fsA info).2.2 →
              p = info.destination_path ∧ b' = b)) := by
  have hopen : openImage c fsB info.path = openImage c fsA info.path := by
    unfold openImage
    rw [hsrc]
  simp only [processJob, hopen]
  rcases ho : openImage c fsA info.path with eo | img <;> dsimp only
  · refine ⟨rfl, rfl, rfl, rfl, rfl, rfl, Or.inl ⟨rfl, rfl, ?_⟩⟩
    intro p b hmem
    simp at hmem
  · rcases ensureParent_det fsA fsB info.destination_path hD with
      ⟨e, hA, hB⟩ | ⟨fs1A, fs1B, trD, hA, hB, hfA, hfB, hwA, hwB, hdA, hdB⟩
    · rw [hA, hB]
      dsimp only
      refine ⟨rfl, rfl, rfl, rfl, rfl, rfl, Or.inl ⟨rfl, rfl, ?_⟩⟩
      intro p b hmem
      simp at hmem
    · have htrD := ensureParent_trace fsA fs1A info.destination_path trD hA
      rw [hA, hB]
      dsimp only
      rcases hfm : info.output_format <;> dsimp only
      case webp =>
        rcases writeFile_det fs1A fs1B info.destination_path
            (webpPayload c info.quality
              (toRgba8 c (resizeExact c img info.target_width info.target_height FilterType.lanczos3)))
            (by rw [hwA, hwB, hW]) with
          ⟨e2, h2A, h2B⟩ | ⟨fs2A, fs2B, h2A, h2B, hf2A, hf2B, hw2A, hw2B, hd2A, hd2B⟩
        · rw [h2A, h2B]
          dsimp only
          refine ⟨rfl, rfl, hwA, hdA, hwB, hdB, Or.inl ⟨hfA, hfB, ?_⟩⟩
          intro p b hmem
          by_cases hq : info.quality = 100 <;>
            rcases htrD with htrD | ⟨par, hpar, htrD⟩ <;> subst htrD <;>
            simp [webpEvent, hq] at hmem
        · rw [h2A, h2B]
          dsimp only
          refine ⟨rfl, rfl, by rw [hw2A, hwA], by rw [hd2A, hdA],
                  by rw [hw2B, hwB], by rw [hd2B, hdB],
                  Or.inr ⟨webpPayload c info.quality
                    (toRgba8 c (resizeExact c img info.target_width info.target_height
                      FilterType.lanczos3)), by rw [hf2A, hfA], by rw [hf2B, hfB], ?_⟩⟩
          intro p b' hmem
          by_cases hq : info.quality = 100 <;>
            rcases htrD with htrD | ⟨par, hpar, htrD⟩ <;> subst htrD <;>
            simp [webpEvent, hq] at hmem <;>
            (try rw [hq]) <;>
            first
            | exact ⟨hmem.1, hmem.2⟩
            | exact ⟨hmem.1, hmem.2.symm⟩
      all_goals (
        rcases hENC : c.saveByExt (extensionOf info.destination_path)
            (resizeExact c img info.target_width info.target_height FilterType.lanczos3)
          with eE | bytes <;> dsimp only
        · refine ⟨rfl, rfl, hwA, hdA, hwB, hdB, Or.inl ⟨hfA, hfB, ?_⟩⟩
          intro p b hmem
          rcases htrD with htrD | ⟨par, hpar, htrD⟩ <;> subst htrD <;> simp at hmem
        · rcases writeFile_det fs1A fs1B info.destination_path bytes
              (by rw [hwA, hwB, hW]) with
            ⟨e2, h2A, h2B⟩ | ⟨fs2A, fs2B, h2A, h2B, hf2A, hf2B, hw2A, hw2B, hd2A, hd2B⟩
          · rw [h2A, h2B]
            dsimp only
            refine ⟨rfl, rfl, hwA, hdA, hwB, hdB, Or.inl ⟨hfA, hfB, ?_⟩⟩
            intro p b hmem
            rcases htrD with htrD | ⟨par, hpar, htrD⟩ <;> subst htrD <;> simp at hmem
          · rw [h2A, h2B]
            dsimp only
            refine ⟨rfl, rfl, by rw [hw2A, hwA], by rw [hd2A, hdA],
                    by rw [hw2B, hwB], by rw [hd2B, hdB],
                    Or.inr ⟨bytes, by rw [hf2A, hfA], by rw [hf2B, hfB], ?_⟩⟩
            intro p b' hmem
            rcases htrD with htrD | ⟨par, hpar, htrD⟩ <;> subst htrD <;>
              simp at hmem <;>
              first
              | exact ⟨hmem.1, hmem.2⟩
              | exact ⟨hmem.1, hmem.2.symm⟩)

/-- `lookupF` only depends on the `files` component. -/
theorem lookupF_congr (fs fs' : FS) (h : fs'.files = fs.files) (p : String) :
    lookupF fs' p = lookupF fs p := by
  unfold lookupF
  rw [h]

/-- Processing a job never changes the failure environment. -/
theorem processJob_preserves_fail (c : Codec) (fs : FS) (info : ImageToSave) :
    (processJob c fs info).2.1.failWrites = fs.failWrites
    ∧ (processJob c fs info).2.1.failDirs = fs.failDirs := by
  have h := processJob_det c info fs fs rfl rfl rfl
  exact ⟨h.2.2.1, h.2.2.2.1⟩

/-- The batch loop never changes the failure environment. -/
theorem saveLoop_preserves_fail (c : Codec) (jobs : List ImageToSave) :
    ∀ (fs : FS) (count : Nat),
      (saveLoop c fs count jobs).2.1.failWrites = fs.failWrites
      ∧ (saveLoop c fs count jobs).2.1.failDirs = fs.failDirs := by
  induction jobs with
  | nil =>
    intro fs count
    exact ⟨rfl, rfl⟩
  | cons j rest ih =>
    intro fs count
    have hpf := processJob_preserves_fail c fs j
    rcases hpj : processJob c fs j with ⟨res, fsJ, trJ⟩
    rw [hpj] at hpf
    dsimp only at hpf
    cases res with
    | error e =>
      rw [saveLoop, hpj]
      exact hpf
    | ok u =>
      rw [saveLoop, hpj]
      dsimp only
      rcases hrest : saveLoop c fsJ (count + 1) rest with ⟨res2, fs2, tr2⟩
      have hih := ih fsJ (count + 1)
      rw [hrest] at hih
      dsimp only at hih
      dsimp only
      exact ⟨hih.1.trans hpf.1, hih.2.trans hpf.2⟩

/-- Batch-level determinism: two starting filesystems with the same
failure environment that agree on every job's source content produce
the same result and the same trace; pointwise file agreement is
preserved, and every path written during the run ends with the same
content on both sides. -/
theorem saveLoop_det (c : Codec) (jobs : List ImageToSave) :
    ∀ (count : Nat) (fsA fsB : FS),
      fsB.failWrites = fsA.failWrites →
      fsB.failDirs = fsA.failDirs →
      (∀ j ∈ jobs, lookupF fsB j.path = lookupF fsA j.path) →
      (saveLoop c fsB count jobs).1 = (saveLoop c fsA count jobs).1
      ∧ (saveLoop c fsB count jobs).2.2 = (saveLoop c fsA count jobs).2.2
      ∧ (∀ p, lookupF fsB p = lookupF fsA p →
           lookupF (saveLoop c fsB count jobs).2.1 p
             = lookupF (saveLoop c fsA count jobs).2.1 p)
      ∧ (∀ p b, Event.writeFile p b ∈ (saveLoop c fsA count jobs).2.2 →
           lookupF (saveLoop c fsB count jobs).2.1 p
             = lookupF (saveLoop c fsA count jobs).2.1 p) := by
  induction jobs with
  | nil =>
    intro count fsA fsB hW hD hsrc
    refine ⟨rfl, rfl, fun p hp => hp, fun p b hmem => ?_⟩
    simp [saveLoop] at hmem
  | cons j rest ih =>
    intro count fsA fsB hW hD hsrc
    have hdet := processJob_det c j fsA fsB hW hD (hsrc j (by simp))
    rcases hpjA : processJob c fsA j with ⟨resA, fsA1, trA⟩
    rcases hpjB : processJob c fsB j with ⟨resB, fsB1, trB⟩
    rw [hpjA, hpjB] at hdet
    dsimp only at hdet
    obtain ⟨hres, htr, hwA1, hdA1, hwB1, hdB1, heff⟩ := hdet
    have hprop : ∀ p, lookupF fsB p = lookupF fsA p → lookupF fsB1 p = lookupF fsA1 p := by
      intro p hp
      rcases heff with ⟨hfA, hfB, hnw⟩ | ⟨b, hfA, hfB, hwr⟩
      · rw [lookupF_congr fsB fsB1 hfB p, lookupF_congr fsA fsA1 hfA p]
        exact hp
      · rw [lookupF_cons fsB fsB1 j.destination_path p b hfB,
            lookupF_cons fsA fsA1 j.destination_path p b hfA]
        by_cases hpd : p = j.destination_path
        · rw [if_pos hpd, if_pos hpd]
        · rw [if_neg hpd, if_neg hpd]
          exact hp
    subst hres
    cases resB with
    | error e =>
      rw [saveLoop, saveLoop, hpjA, hpjB]
      dsimp only
      refine ⟨rfl, htr, fun p hp => hprop p hp, fun p b hmem => ?_⟩
      rcases heff with ⟨hfA, hfB, hnw⟩ | ⟨b0, hfA, hfB, hwr⟩
      · exact absurd hmem (hnw p b)
      · obtain ⟨hpd, hbb⟩ := hwr p b hmem
        rw [hpd, lookupF_cons fsB fsB1 j.destination_path j.destination_path b0 hfB,
            lookupF_cons fsA fsA1 j.destination_path j.destination_path b0 hfA]
        rw [if_pos rfl, if_pos rfl]
    | ok u =>
      rw [saveLoop, saveLoop, hpjA, hpjB]
      dsimp only
      have hsrc1 : ∀ j' ∈ rest, lookupF fsB1 j'.path = lookupF fsA1 j'.path :=
        fun j' hj' => hprop j'.path (hsrc j' (by simp [hj']))
      have hW1 : fsB1.failWrites = fsA1.failWrites := by rw [hwB1, hW, ← hwA1]
      have hD1 : fsB1.failDirs = fsA1.failDirs := by rw [hdB1, hD, ← hdA1]
      have hih := ih (count + 1) fsA1 fsB1 hW1 hD1 hsrc1
      rcases hrestA : saveLoop c fsA1 (count + 1) rest with ⟨res2A, fs2A, tr2A⟩
      rcases hrestB : saveLoop c fsB1 (count + 1) rest with ⟨res2B, fs2B, tr2B⟩
      rw [hrestA, hrestB] at hih
      dsimp only at hih
      obtain ⟨hres2, htr2, hprop2, hwr2⟩ := hih
      dsimp only
      refine ⟨hres2, by rw [htr, htr2], fun p hp => hprop2 p (hprop p hp), fun p b hmem => ?_⟩
      rw [List.mem_append] at hmem
      rcases hmem with hmem | hmem
      · rcases heff with ⟨hfA, hfB, hnw⟩ | ⟨b0, hfA, hfB, hwr⟩
        · exact absurd hmem (hnw p b)
        · obtain ⟨hpd, hbb⟩ := hwr p b hmem
          rw [hpd]
          refine hprop2 j.destination_path ?_
          rw [lookupF_cons fsB fsB1 j.destination_path j.destination_path b0 hfB,
              lookupF_cons fsA fsA1 j.destination_path j.destination_path b0 hfA]
          rw [if_pos rfl, if_pos rfl]
      · exact hwr2 p b hmem

/-- C7: `save_images` is deterministic and idempotent: if a batch run
succeeds and leaves every job's source file unchanged, then re-running
the identical batch on the resulting filesystem returns the same
result, performs exactly the same pipeline steps with the same
arguments (the same trace, hence byte-identical encoded output), and
overwrites every destination written by the first run with
byte-identical content. -/
theorem save_images_deterministic (c : Codec) (fs : FS) (jobs : List ImageToSave)
    (r : SaveResult)
    (h1 : (save_images c fs jobs).1 = Except.ok r)
    (hsrc : ∀ j ∈ jobs, lookupF (save_images c fs jobs).2.1 j.path = lookupF fs j.path) :
    (save_images c (save_images c fs jobs).2.1 jobs).1 = Except.ok r
    ∧ (save_images c (save_images c fs jobs).2.1 jobs).2.2 = (save_images c fs jobs).2.2
    ∧ ∀ p b, Event.writeFile p b ∈ (save_images c fs jobs).2.2 →
        lookupF (save_images c (save_images c fs jobs).2.1 jobs).2.1 p
          = lookupF (save_images c fs jobs).2.1 p := by
  have hpf := saveLoop_preserves_fail c jobs fs 0
  have hdet := saveLoop_det c jobs 0 fs (save_images c fs jobs).2.1 hpf.1 hpf.2 hsrc
  exact ⟨hdet.1.trans h1, hdet.2.1, hdet.2.2.2⟩

/-- Witness for C7: the two-job batch run twice from `fsA`. -/
theorem save_images_deterministic_witness :
    (save_images testCodec (save_images testCodec fsA [jobWebp, jobPng]).2.1
        [jobWebp, jobPng]).1
      = Except.ok { success := true, saved_count := 2 }
    ∧ (save_images testCodec (save_images testCodec fsA [jobWebp, jobPng]).2.1
        [jobWebp, jobPng]).2.2
      = (save_images testCodec fsA [jobWebp, jobPng]).2.2
    ∧ ∀ p b, Event.writeFile p b ∈ (save_images testCodec fsA [jobWebp, jobPng]).2.2 →
        lookupF (save_images testCodec (save_images testCodec fsA [jobWebp, jobPng]).2.1
          [jobWebp, jobPng]).2.1 p
          = lookupF (save_images testCodec fsA [jobWebp, jobPng]).2.1 p :=
  save_images_deterministic testCodec fsA [jobWebp, jobPng]
    { success := true, saved_count := 2 } rfl (by decide)


end ImageCompressor
